import Mathlib

/-!
Verification of the modular-arithmetic core of `electionguard`
(`src/electionguard/group.py`) against its specification.

The primes `Q` (small) and `P` (large) are supplied by `constants.py`
(`get_small_prime`, `get_large_prime`), which is outside the verified
sources; following the spec every theorem is parametrized over the
moduli, with primality or positivity hypotheses where an argument needs
them.  Element values are modelled as `ℤ` (Python integers / `mpz`);
Python's `%` on a positive modulus agrees with `Int.emod`.
-/

namespace ElectionGuard

/-- Hex digit character for a value below 16, uppercase as produced by
Python's `format(input, "02X")` in `int_to_hex`. -/
def toHexChar (d : ℕ) : Char :=
  if d < 10 then Char.ofNat (48 + d) else Char.ofNat (55 + d)

/-- Value of a hex digit character, accepting both cases exactly as
Python's `int(input, 16)` does in `hex_to_int`; `none` on a
non-hex-digit character. -/
def fromHexChar (c : Char) : Option ℕ :=
  if 48 ≤ c.toNat ∧ c.toNat ≤ 57 then some (c.toNat - 48)
  else if 65 ≤ c.toNat ∧ c.toNat ≤ 70 then some (c.toNat - 55)
  else if 97 ≤ c.toNat ∧ c.toNat ≤ 102 then some (c.toNat - 87)
  else none

/-- Big-endian accumulation of hex digits, the core of `int(input, 16)`. -/
def hexCharsToNat : List Char → ℕ → Option ℕ
  | [], acc => some acc
  | c :: rest, acc =>
    match fromHexChar c with
    | none => none
    | some d => hexCharsToNat rest (acc * 16 + d)

/-- Source `hex_to_int` (group.py lines 21-23): parse a hex string to an
integer; `none` models the `ValueError` Python raises on a string that is
not a plain nonempty run of hex digits. -/
def hex_to_int (s : String) : Option ℕ :=
  if s.data = [] then none else hexCharsToNat s.data 0

/-- Little-endian base-16 digits of `n`, fuel-structured so that the
recursion is structural (the fuel `n` always suffices). -/
def hexRevDigitsAux : ℕ → ℕ → List ℕ
  | 0, _ => []
  | _ + 1, 0 => []
  | fuel + 1, n + 1 => ((n + 1) % 16) :: hexRevDigitsAux fuel ((n + 1) / 16)

/-- Little-endian base-16 digits of `n` (empty for `n = 0`). -/
def hexRevDigits (n : ℕ) : List ℕ := hexRevDigitsAux n n

/-- Minimal big-endian uppercase hex rendering of `n`, as produced by
Python's `format(n, "X")` (`"0"` for zero). -/
def int_to_hexChars (n : ℕ) : List Char :=
  if n = 0 then ['0'] else ((hexRevDigits n).reverse).map toHexChar

/-- Source `int_to_hex` (group.py lines 26-31): uppercase hex with a
single leading zero added when the length is odd (Python's
`format(input, "02X")` already pads the one-digit case to width 2, which
coincides with the odd-length rule). -/
def int_to_hex (n : ℕ) : String :=
  let h := int_to_hexChars n
  ⟨if h.length % 2 = 1 then '0' :: h else h⟩

/-- Value of a little-endian base-16 digit list. -/
def valLE : List ℕ → ℕ
  | [] => 0
  | d :: ds => d + 16 * valLE ds

/-- Declared variant of an element: `ElementModQ` or `ElementModP`
(group.py lines 166-179).  The variant fixes `get_upper_bound` but is
ignored by `__eq__`. -/
inductive ElemVariant
  | modQ
  | modP
deriving DecidableEq, Repr

/-- Source `BaseElement` (group.py lines 52-163): the stored hex string
`data` and the integer value `_value`. -/
structure BaseElement where
  variant : ElemVariant
  data : String
  value : ℤ
deriving DecidableEq, Repr

/-- Source `BaseElement.__init__` on an `int` argument with
`check_within_bounds=True` (group.py lines 60-68 with
`_convert_to_element`, lines 41-49): the hex is `int_to_hex(data)`, the
value is `data`, and an out-of-bounds value raises `OverflowError`
(modelled as `none`; the partially built object never escapes, so the
hex is only rendered on the in-bounds branch, where the value is
nonnegative). -/
def element_of_int (var : ElemVariant) (modulus : ℤ) (v : ℤ) : Option BaseElement :=
  if 0 ≤ v ∧ v < modulus then some ⟨var, int_to_hex v.toNat, v⟩ else none

/-- Source `BaseElement.__init__` on a `str` argument (group.py lines
60-68 with `_convert_to_element`): the hex is the string as given, the
value is `hex_to_int(data)`.  The outer `none` models the `ValueError`
of a malformed hex string, the inner `none` the `OverflowError` of an
out-of-bounds value. -/
def element_of_hex (var : ElemVariant) (modulus : ℤ) (s : String) :
    Option (Option BaseElement) :=
  (hex_to_int s).map fun (n : ℕ) =>
    if 0 ≤ (n : ℤ) ∧ (n : ℤ) < modulus then some ⟨var, s, (n : ℤ)⟩ else none

/-- Source `BaseElement.__eq__` (group.py lines 82-87): equal to any
`BaseElement` (`isinstance(other, BaseElement)`, any variant) with the
same integer value, and to any plain `int` with the same value. -/
def elem_eq (a : BaseElement) (other : BaseElement ⊕ ℤ) : Bool :=
  match other with
  | Sum.inl b => a.value == b.value
  | Sum.inr n => a.value == n

/-- Source `BaseElement.__add__` (group.py lines 115-117): plain integer
addition of the values, no reduction, no element construction. -/
def elem_add (a : BaseElement) (other : ℤ) : ℤ :=
  a.value + other

/-- Source `BaseElement.__sub__` (group.py lines 119-121): plain integer
subtraction of the values, no reduction, no element construction. -/
def elem_sub (a : BaseElement) (other : ℤ) : ℤ :=
  a.value - other

/-- Source `ONE_MOD_Q = ElementModQ(1)` (group.py line 189). -/
def ONE_MOD_Q (q : ℤ) : Option BaseElement := element_of_int .modQ q 1

/-- Source `ONE_MOD_P = ElementModP(1)` (group.py line 193). -/
def ONE_MOD_P (p : ℤ) : Option BaseElement := element_of_int .modP p 1

/-- Source `ZERO_MOD_Q = ElementModQ(0)` (group.py line 188). -/
def ZERO_MOD_Q (q : ℤ) : Option BaseElement := element_of_int .modQ q 0

/-- Source `hex_to_q` (group.py lines 209-218): construct an
`ElementModQ` from hex, catching only `OverflowError` into `None`; a
`ValueError` from a malformed string (outer `none`) propagates. -/
def hex_to_q (q : ℤ) (s : String) : Option (Option BaseElement) :=
  element_of_hex .modQ q s

/-- Source `int_to_q` (group.py lines 221-230): construct an
`ElementModQ` from an integer, catching `OverflowError` into `None`. -/
def int_to_q (q : ℤ) (n : ℤ) : Option BaseElement :=
  element_of_int .modQ q n

/-- Source `hex_to_p` (group.py lines 233-242), as `hex_to_q` mod `p`. -/
def hex_to_p (p : ℤ) (s : String) : Option (Option BaseElement) :=
  element_of_hex .modP p s

/-- Source `int_to_p` (group.py lines 245-254), as `int_to_q` mod `p`. -/
def int_to_p (p : ℤ) (n : ℤ) : Option BaseElement :=
  element_of_int .modP p n

/-- Source `add_q` (group.py lines 257-263): fold `(sum + e) % Q` from 0
over the operand values (`_get_mpz` of each), then `ElementModQ(sum)`. -/
def add_q (q : ℤ) (elems : List ℤ) : Option BaseElement :=
  element_of_int .modQ q (elems.foldl (fun sum e => (sum + e) % q) 0)

/-- Source `negate_q` (group.py lines 287-290): `ElementModQ(Q - a)` —
note the source applies no `mod` to `Q - a` before the bounds-checking
constructor. -/
def negate_q (q : ℤ) (a : ℤ) : Option BaseElement :=
  element_of_int .modQ q (q - a)

/-- Source `mult_p` (group.py lines 338-348): fold `(product * x) % P`
from 1 over the operand values, then `ElementModP(product)`. -/
def mult_p (p : ℤ) (elems : List ℤ) : Option BaseElement :=
  element_of_int .modP p (elems.foldl (fun product x => (product * x) % p) 1)

/-- Source `mult_q` (group.py lines 351-361): fold `(product * x) % Q`
from 1 over the operand values, then `ElementModQ(product)`. -/
def mult_q (q : ℤ) (elems : List ℤ) : Option BaseElement :=
  element_of_int .modQ q (elems.foldl (fun product x => (product * x) % q) 1)

/-- Result of gmpy2's `powmod(e, -1, p)`: the inverse of `e` mod `p`
when `e` and `p` are coprime (computed from the extended gcd, reduced
into `[0, p)`), a `ZeroDivisionError` (`none`) otherwise. -/
def powmod_inv (e p : ℤ) : Option ℤ :=
  if Int.gcd e p = 1 then some (Int.gcdA e p % p) else none

/-- Source `mult_inv_p` (group.py lines 303-311): `assert e != 0` with
message `"No multiplicative inverse for zero"`, then
`ElementModP(powmod(e, -1, P))`.  Failures are modelled as `Except`
errors tagged with the Python exception raised. -/
def mult_inv_p (p : ℤ) (e : ℤ) : Except String BaseElement :=
  if e = 0 then Except.error "No multiplicative inverse for zero"
  else
    match powmod_inv e p with
    | none => Except.error "ZeroDivisionError"
    | some r =>
      match element_of_int .modP p r with
      | none => Except.error "OverflowError"
      | some el => Except.ok el

/-- Loop of source `rand_range_q` (group.py lines 389-393): starting
from the candidate `random`, while `random < start` replace it by the
next draw of `randbelow(Q)`.  `draws` is the stream the secure random
source would produce; the outer `none` means the loop would consume more
draws than the modelled stream holds. -/
def rand_range_q_loop (q : ℤ) (start : ℤ) (random : ℤ) :
    List ℤ → Option (Option BaseElement)
  | [] => if random < start then none else some (element_of_int .modQ q random)
  | d :: rest =>
    if random < start then rand_range_q_loop q start d rest
    else some (element_of_int .modQ q random)

/-- Source `rand_range_q` (group.py lines 382-393): the loop above with
the initial candidate `random = 0`, then `ElementModQ(random)`. -/
def rand_range_q (q : ℤ) (start : ℤ) (draws : List ℤ) :
    Option (Option BaseElement) :=
  rand_range_q_loop q start 0 draws

theorem fromHexChar_toHexChar {d : ℕ} (hd : d < 16) :
    fromHexChar (toHexChar d) = some d := by
  interval_cases d <;> decide

theorem hexCharsToNat_map_toHexChar (ds : List ℕ) (hds : ∀ d ∈ ds, d < 16) :
    ∀ acc, hexCharsToNat (ds.map toHexChar) acc =
      some (ds.foldl (fun a d => a * 16 + d) acc) := by
  induction ds with
  | nil => intro acc; rfl
  | cons d ds ih =>
    intro acc
    have hd : d < 16 := hds d (List.mem_cons_self d ds)
    simp only [List.map_cons, hexCharsToNat, fromHexChar_toHexChar hd,
      List.foldl_cons]
    exact ih (fun x hx => hds x (List.mem_cons_of_mem d hx)) _

theorem foldr_valLE (l : List ℕ) :
    l.foldr (fun d a => a * 16 + d) 0 = valLE l := by
  induction l with
  | nil => rfl
  | cons d ds ih => simp [List.foldr_cons, ih, valLE]; ring

theorem hexRevDigitsAux_lt (fuel n : ℕ) :
    ∀ d ∈ hexRevDigitsAux fuel n, d < 16 := by
  induction fuel generalizing n with
  | zero => intro d hd; simp [hexRevDigitsAux] at hd
  | succ fuel ih =>
    intro d hd
    cases n with
    | zero => simp [hexRevDigitsAux] at hd
    | succ m =>
      simp only [hexRevDigitsAux, List.mem_cons] at hd
      rcases hd with h | h
      · omega
      · exact ih _ d h

theorem valLE_hexRevDigitsAux (fuel : ℕ) :
    ∀ n, n ≤ fuel → valLE (hexRevDigitsAux fuel n) = n := by
  induction fuel with
  | zero =>
    intro n hn
    interval_cases n
    rfl
  | succ fuel ih =>
    intro n hn
    cases n with
    | zero => rfl
    | succ m =>
      have hdiv : (m + 1) / 16 ≤ fuel := by
        have := Nat.div_lt_self (Nat.succ_pos m) (by omega : 1 < 16)
        omega
      simp only [hexRevDigitsAux, valLE, ih _ hdiv]
      omega

theorem valLE_hexRevDigits (n : ℕ) : valLE (hexRevDigits n) = n :=
  valLE_hexRevDigitsAux n n le_rfl

theorem hexRevDigits_lt (n : ℕ) : ∀ d ∈ hexRevDigits n, d < 16 :=
  hexRevDigitsAux_lt n n

theorem hexCharsToNat_int_to_hexChars (n : ℕ) :
    hexCharsToNat (int_to_hexChars n) 0 = some n := by
  by_cases h0 : n = 0
  · subst h0; decide
  · simp only [int_to_hexChars, if_neg h0, ← List.map_reverse]
    rw [hexCharsToNat_map_toHexChar _
      (fun d hd => hexRevDigits_lt n d (List.mem_reverse.mp hd))]
    rw [List.foldl_reverse]
    simp only [foldr_valLE, valLE_hexRevDigits]

theorem int_to_hexChars_ne_nil (n : ℕ) : int_to_hexChars n ≠ [] := by
  by_cases h0 : n = 0
  · subst h0; decide
  · simp only [int_to_hexChars, if_neg h0]
    intro h
    have hne : hexRevDigits n ≠ [] := by
      unfold hexRevDigits
      cases n with
      | zero => exact absurd rfl h0
      | succ m => simp [hexRevDigitsAux]
    simp only [List.map_eq_nil, List.reverse_eq_nil_iff] at h
    exact hne h

/-- Round trip: parsing the canonical encoding recovers the integer. -/
theorem hex_to_int_int_to_hex (n : ℕ) : hex_to_int (int_to_hex n) = some n := by
  simp only [int_to_hex, hex_to_int]
  by_cases hodd : (int_to_hexChars n).length % 2 = 1
  · simp only [if_pos hodd]
    have : ('0' :: int_to_hexChars n) ≠ [] := by simp
    rw [if_neg (by simpa using this)]
    show hexCharsToNat ('0' :: int_to_hexChars n) 0 = some n
    simp only [hexCharsToNat]
    have h0 : fromHexChar '0' = some 0 := by decide
    rw [h0]
    simpa using hexCharsToNat_int_to_hexChars n
  · simp only [if_neg hodd]
    rw [if_neg (by simpa using int_to_hexChars_ne_nil n)]
    exact hexCharsToNat_int_to_hexChars n

theorem element_of_int_of_emod (var : ElemVariant) (p : ℤ) (hp : 0 < p) (x : ℤ) :
    element_of_int var p (x % p) = some ⟨var, int_to_hex (x % p).toNat, x % p⟩ := by
  rw [element_of_int,
    if_pos ⟨Int.emod_nonneg x (ne_of_gt hp), Int.emod_lt_of_pos x hp⟩]

theorem int_gcd_one_of_prime_of_lt (P : ℕ) (hp : P.Prime) (e : ℤ)
    (h1 : 1 ≤ e) (h2 : e < (P : ℤ)) : Int.gcd e (P : ℤ) = 1 := by
  have hb : 1 ≤ e.natAbs ∧ e.natAbs < P := by omega
  have hcop : Nat.Coprime P e.natAbs :=
    (Nat.Prime.coprime_iff_not_dvd hp).mpr (Nat.not_dvd_of_pos_of_lt (by omega) hb.2)
  have : Nat.gcd e.natAbs P = 1 := Nat.Coprime.gcd_eq_one (Nat.Coprime.symm hcop)
  simpa [Int.gcd] using this

theorem mul_gcdA_emod (P : ℕ) (e : ℤ) (hgcd : Int.gcd e (P : ℤ) = 1)
    (hP : 1 < (P : ℤ)) : (e * (Int.gcdA e (P : ℤ) % (P : ℤ))) % (P : ℤ) = 1 := by
  have hbez := Int.gcd_eq_gcd_ab e (P : ℤ)
  rw [hgcd] at hbez
  have hea : e * Int.gcdA e (P : ℤ) =
      1 - (P : ℤ) * Int.gcdB e (P : ℤ) := by push_cast at hbez; linarith
  calc (e * (Int.gcdA e (P : ℤ) % (P : ℤ))) % (P : ℤ)
      = (e * Int.gcdA e (P : ℤ)) % (P : ℤ) := by
        rw [Int.mul_emod, Int.emod_emod_of_dvd _ dvd_rfl, ← Int.mul_emod]
    _ = (1 - (P : ℤ) * Int.gcdB e (P : ℤ)) % (P : ℤ) := by rw [hea]
    _ = 1 % (P : ℤ) := by
        rw [Int.sub_emod, Int.mul_emod_right]
        simp
    _ = 1 := Int.emod_eq_of_lt (by norm_num) hP

theorem mult_inv_p_eq_ok (p e r : ℤ) (el : BaseElement) (he : ¬ e = 0)
    (hr : powmod_inv e p = some r) (hel : element_of_int .modP p r = some el) :
    mult_inv_p p e = Except.ok el := by
  rw [mult_inv_p, if_neg he, hr]
  show (match element_of_int ElemVariant.modP p r with
    | none => Except.error "OverflowError"
    | some el => Except.ok el) = Except.ok el
  rw [hel]

theorem rand_range_q_loop_spec (q start : ℤ) (hsq : start < q) :
    ∀ (draws : List ℤ), (∀ d ∈ draws, 0 ≤ d ∧ d < q) →
    ∀ random, 0 ≤ random → random < q →
    ∀ e, rand_range_q_loop q start random draws = some (some e) →
      (start ≤ e.value ∧ e.value < q) ∧ (e.value = random ∨ e.value ∈ draws) := by
  intro draws
  induction draws with
  | nil =>
    intro _ random h0 h1 e he
    rw [rand_range_q_loop] at he
    by_cases hlt : random < start
    · rw [if_pos hlt] at he; exact absurd he (by simp)
    · rw [if_neg hlt, element_of_int, if_pos ⟨h0, h1⟩] at he
      have : e = ⟨.modQ, int_to_hex random.toNat, random⟩ := by
        simpa using he.symm
      subst this
      exact ⟨⟨le_of_not_lt hlt, h1⟩, Or.inl rfl⟩
  | cons d rest ih =>
    intro hd random h0 h1 e he
    rw [rand_range_q_loop] at he
    by_cases hlt : random < start
    · rw [if_pos hlt] at he
      have hdd := hd d (List.mem_cons_self d rest)
      have hih := ih (fun x hx => hd x (List.mem_cons_of_mem d hx)) d hdd.1 hdd.2 e he
      refine ⟨hih.1, Or.inr ?_⟩
      rcases hih.2 with h | h
      · exact h ▸ List.mem_cons_self d rest
      · exact List.mem_cons_of_mem d h
    · rw [if_neg hlt, element_of_int, if_pos ⟨h0, h1⟩] at he
      have : e = ⟨.modQ, int_to_hex random.toNat, random⟩ := by
        simpa using he.symm
      subst this
      exact ⟨⟨le_of_not_lt hlt, h1⟩, Or.inl rfl⟩

/-- C1: `negate_q(0)` does not return the element `(Q − 0) mod Q = 0`:
the source computes `ElementModQ(Q - a)` with no reduction, so at
`a = 0` the bounds-checking constructor receives `Q` itself and raises
`OverflowError` (modelled as `none`), even though `(Q - 0) % Q = 0` is
the in-bounds value the specification promises. -/
theorem negate_q_zero_overflow (q : ℤ) (hq : 0 < q) :
    negate_q q 0 = none ∧ (q - 0) % q = 0 := by
  constructor
  · rw [negate_q, element_of_int, if_neg]
    intro h
    exact absurd h.2 (by omega)
  · simp

theorem negate_q_zero_overflow_witness :
    negate_q 7 0 = none ∧ ((7 : ℤ) - 0) % 7 = 0 :=
  negate_q_zero_overflow 7 (by decide)

/-- C9: when `start = 0`, `rand_range_q` deterministically returns the
zero element of the Q-space whatever the random stream holds: the loop's
initial candidate is the constant `0`, which already fails `random <
start`, so the result equals the run on the empty stream — no draw is
ever consumed. -/
theorem rand_range_q_zero_start_deterministic (q : ℤ) (hq : 0 < q)
    (draws : List ℤ) :
    rand_range_q q 0 draws = some (some ⟨.modQ, "00", 0⟩) ∧
    rand_range_q q 0 draws = rand_range_q q 0 [] := by
  have h00 : int_to_hex (Int.toNat 0) = "00" := by decide
  have hbase : ∀ ds : List ℤ, rand_range_q q 0 ds = some (some ⟨.modQ, "00", 0⟩) := by
    intro ds
    cases ds with
    | nil =>
      rw [rand_range_q, rand_range_q_loop, if_neg (lt_irrefl 0),
        element_of_int, if_pos ⟨le_refl 0, hq⟩, h00]
    | cons d rest =>
      rw [rand_range_q, rand_range_q_loop, if_neg (lt_irrefl 0),
        element_of_int, if_pos ⟨le_refl 0, hq⟩, h00]
  exact ⟨hbase draws, (hbase draws).trans (hbase []).symm⟩

theorem rand_range_q_zero_start_deterministic_witness :
    rand_range_q 7 0 [5] = some (some ⟨.modQ, "00", 0⟩) ∧
    rand_range_q 7 0 [5] = rand_range_q 7 0 [] :=
  rand_range_q_zero_start_deterministic 7 (by decide) [5]

/-- C2 counterexample: at `start = 0` the claim "every returned value is
one actually drawn from the source" fails — with the random source ready
to produce `3`, `rand_range_q(0)` returns the element of value `0`,
which was never drawn (`0 ∉ [3]`): the loop's initial candidate is the
constant `0`, not a draw. -/
theorem rand_range_q_zero_not_drawn_cex :
    rand_range_q 7 0 [3] = some (some ⟨.modQ, "00", 0⟩) ∧
    ¬ ((⟨.modQ, "00", 0⟩ : BaseElement).value ∈ ([3] : List ℤ)) := by
  constructor
  · decide
  · decide

/-- C2 amended: for every `start` in `[0, Q)` and a random stream of
values in `[0, Q)` (as `randbelow(Q)` produces), any element returned by
`rand_range_q(start)` has value in `[start, Q)`; and whenever
`start ≥ 1` the returned value is one actually drawn from the source.
(For `start = 0` the returned value is the constant initial candidate
`0`, drawn from nothing — the counterexample above.) -/
theorem rand_range_q_range_and_drawn (q start : ℤ) (draws : List ℤ)
    (hs : 0 ≤ start) (hsq : start < q) (hd : ∀ d ∈ draws, 0 ≤ d ∧ d < q) :
    (∀ e, rand_range_q q start draws = some (some e) →
      start ≤ e.value ∧ e.value < q) ∧
    (1 ≤ start → ∀ e, rand_range_q q start draws = some (some e) →
      e.value ∈ draws) := by
  have hq : (0 : ℤ) < q := lt_of_le_of_lt hs hsq
  constructor
  · intro e he
    exact (rand_range_q_loop_spec q start hsq draws hd 0 le_rfl hq e he).1
  · intro h1 e he
    have := rand_range_q_loop_spec q start hsq draws hd 0 le_rfl hq e he
    rcases this.2 with h | h
    · exfalso
      have := this.1.1
      omega
    · exact h

theorem rand_range_q_range_and_drawn_witness :
    (∀ e, rand_range_q 7 1 [0, 3] = some (some e) →
      1 ≤ e.value ∧ e.value < 7) ∧
    (1 ≤ (1 : ℤ) → ∀ e, rand_range_q 7 1 [0, 3] = some (some e) →
      e.value ∈ ([0, 3] : List ℤ)) :=
  rand_range_q_range_and_drawn 7 1 [0, 3] (by decide) (by decide) (by decide)

/-- C3 counterexample: an `ElementModQ` and an `ElementModP` of equal
integer value (both constructible, here the value 1 under moduli 7 and
23) DO compare equal under `__eq__`, because the source tests
`isinstance(other, BaseElement)`, which any variant satisfies — refuting
the claim that elements of different declared variants are never equal. -/
theorem elem_eq_cross_variant_cex :
    element_of_int .modQ 7 1 = some ⟨.modQ, "01", 1⟩ ∧
    element_of_int .modP 23 1 = some ⟨.modP, "01", 1⟩ ∧
    elem_eq ⟨.modQ, "01", 1⟩ (Sum.inl ⟨.modP, "01", 1⟩) = true := by
  refine ⟨by decide, by decide, by decide⟩

/-- C3 amended: equality is defined purely on the integer value — an
`ElementModQ` compares equal to an `ElementModP` exactly when their
integer values coincide (never-equal-across-variants is false), and an
element compares equal to a plain integer exactly when the values
coincide. -/
theorem elem_eq_value_based (a b : BaseElement) (ha : a.variant = .modQ)
    (hb : b.variant = .modP) (n : ℤ) :
    (elem_eq a (Sum.inl b) = true ↔ a.value = b.value) ∧
    (elem_eq a (Sum.inr n) = true ↔ a.value = n) := by
  constructor
  · simp [elem_eq]
  · simp [elem_eq]

theorem elem_eq_value_based_witness :
    (elem_eq ⟨.modQ, "01", 1⟩ (Sum.inl ⟨.modP, "02", 2⟩) = true ↔
      (⟨.modQ, "01", 1⟩ : BaseElement).value = (⟨.modP, "02", 2⟩ : BaseElement).value) ∧
    (elem_eq ⟨.modQ, "01", 1⟩ (Sum.inr 1) = true ↔
      (⟨.modQ, "01", 1⟩ : BaseElement).value = 1) :=
  elem_eq_value_based ⟨.modQ, "01", 1⟩ ⟨.modP, "02", 2⟩ rfl rfl 1

/-- C4 counterexample: an element constructed from the accepted hex
string `"0005"` stores that string as-is, but the canonical encoding of
its value 5 is `"05"` — so the stored hex (returned by `to_hex()`) is
not the canonical uppercase minimally-padded encoding of the integer,
refuting the both-directions consistency claim. -/
theorem stored_hex_not_canonical_cex :
    element_of_hex .modQ 7 "0005" = some (some ⟨.modQ, "0005", 5⟩) ∧
    int_to_hex (Int.toNat 5) = "05" ∧ ("0005" : String) ≠ "05" := by
  refine ⟨by decide, by decide, by decide⟩

/-- C4 amended: the decode direction always holds — for every element,
however constructed, the stored hex parses back to exactly the integer
value; and for elements constructed from an integer the stored hex is
exactly the canonical encoding.  For elements constructed from a hex
string the stored hex is the input string as given, which need not be
canonical (see the counterexample). -/
theorem element_hex_value_consistency :
    (∀ (var : ElemVariant) (modulus v : ℤ) (e : BaseElement),
      element_of_int var modulus v = some e →
        e.value = v ∧ e.data = int_to_hex v.toNat ∧
        hex_to_int e.data = some e.value.toNat) ∧
    (∀ (var : ElemVariant) (modulus : ℤ) (s : String) (e : BaseElement),
      element_of_hex var modulus s = some (some e) →
        e.data = s ∧ hex_to_int e.data = some e.value.toNat) := by
  constructor
  · intro var modulus v e he
    rw [element_of_int] at he
    by_cases hb : 0 ≤ v ∧ v < modulus
    · rw [if_pos hb] at he
      have : e = ⟨var, int_to_hex v.toNat, v⟩ := by simpa using he.symm
      subst this
      exact ⟨rfl, rfl, hex_to_int_int_to_hex v.toNat⟩
    · rw [if_neg hb] at he
      exact absurd he (by simp)
  · intro var modulus s e he
    rw [element_of_hex] at he
    cases hparse : hex_to_int s with
    | none => rw [hparse] at he; exact absurd he (by simp)
    | some n =>
      rw [hparse] at he
      have he2 : (if 0 ≤ (n : ℤ) ∧ (n : ℤ) < modulus then
          some (⟨var, s, (n : ℤ)⟩ : BaseElement) else none) = some e := by
        simpa using he
      by_cases hb : 0 ≤ (n : ℤ) ∧ (n : ℤ) < modulus
      · rw [if_pos hb] at he2
        have : e = ⟨var, s, (n : ℤ)⟩ := by simpa using he2.symm
        subst this
        refine ⟨rfl, ?_⟩
        simpa [Int.toNat_natCast] using hparse
      · rw [if_neg hb] at he2
        exact absurd he2 (by simp)

theorem element_hex_value_consistency_witness :
    ((⟨.modQ, "05", 5⟩ : BaseElement).value = 5 ∧
      (⟨.modQ, "05", 5⟩ : BaseElement).data = int_to_hex (Int.toNat 5) ∧
      hex_to_int (⟨.modQ, "05", 5⟩ : BaseElement).data =
        some (⟨.modQ, "05", 5⟩ : BaseElement).value.toNat) ∧
    ((⟨.modP, "0A", 10⟩ : BaseElement).data = "0A" ∧
      hex_to_int (⟨.modP, "0A", 10⟩ : BaseElement).data =
        some (⟨.modP, "0A", 10⟩ : BaseElement).value.toNat) :=
  ⟨element_hex_value_consistency.1 .modQ 7 5 ⟨.modQ, "05", 5⟩ (by decide),
   element_hex_value_consistency.2 .modP 23 "0A" ⟨.modP, "0A", 10⟩ (by decide)⟩

/-- C5 counterexample: `mult_inv_p(0)` does fail before any computation,
but the `assert` it fails with carries the message
`"No multiplicative inverse for zero"`, not the claimed
`"no inverse for zero"` (and it is an `AssertionError`, not a dedicated
`DomainError` type). -/
theorem mult_inv_p_zero_message_cex :
    mult_inv_p 23 0 = Except.error "No multiplicative inverse for zero" ∧
    "No multiplicative inverse for zero" ≠ "no inverse for zero" := by
  refine ⟨rfl, by decide⟩

/-- C5 amended: `mult_inv_p` on the zero value fails with an assertion
error carrying the message `"No multiplicative inverse for zero"` and
never returns a result for zero input; for every nonzero input in
`[1, P)` (`P` prime, per the spec's constants) it does not fail. -/
theorem mult_inv_p_zero_fails_nonzero_ok (P : ℕ) (hp : P.Prime) :
    mult_inv_p (P : ℤ) 0 = Except.error "No multiplicative inverse for zero" ∧
    ∀ e : ℤ, 1 ≤ e → e < (P : ℤ) → ∃ el, mult_inv_p (P : ℤ) e = Except.ok el := by
  constructor
  · rfl
  · intro e h1 h2
    have hP1 : (1 : ℤ) < (P : ℤ) := by exact_mod_cast hp.one_lt
    have hP0 : (0 : ℤ) < (P : ℤ) := by linarith
    have hgcd := int_gcd_one_of_prime_of_lt P hp e h1 h2
    refine ⟨_, mult_inv_p_eq_ok (P : ℤ) e (Int.gcdA e (P : ℤ) % (P : ℤ)) _
      (by omega) ?_ (element_of_int_of_emod .modP (P : ℤ) hP0 (Int.gcdA e (P : ℤ)))⟩
    rw [powmod_inv, if_pos hgcd]

theorem mult_inv_p_zero_fails_nonzero_ok_witness :
    mult_inv_p ((23 : ℕ) : ℤ) 0 = Except.error "No multiplicative inverse for zero" ∧
    ∀ e : ℤ, 1 ≤ e → e < ((23 : ℕ) : ℤ) →
      ∃ el, mult_inv_p ((23 : ℕ) : ℤ) e = Except.ok el :=
  mult_inv_p_zero_fails_nonzero_ok 23 (by norm_num)

/-- C6: for every nonzero element value `e` in `[1, P)` with `P` prime
(per the spec's constants), `mult_inv_p` succeeds and
`mult_p(e, mult_inv_p(e))` equals `ONE_MOD_P`: the returned element is
the multiplicative inverse of `e` modulo `P`. -/
theorem mult_p_mult_inv_p_eq_one (P : ℕ) (hp : P.Prime) (e : ℤ)
    (h1 : 1 ≤ e) (h2 : e < (P : ℤ)) :
    ∃ el, mult_inv_p (P : ℤ) e = Except.ok el ∧
      mult_p (P : ℤ) [e, el.value] = ONE_MOD_P (P : ℤ) := by
  have hP1 : (1 : ℤ) < (P : ℤ) := by exact_mod_cast hp.one_lt
  have hP0 : (0 : ℤ) < (P : ℤ) := by linarith
  have hgcd := int_gcd_one_of_prime_of_lt P hp e h1 h2
  refine ⟨⟨.modP, int_to_hex (Int.gcdA e (P : ℤ) % (P : ℤ)).toNat,
    Int.gcdA e (P : ℤ) % (P : ℤ)⟩, ?_, ?_⟩
  · refine mult_inv_p_eq_ok (P : ℤ) e (Int.gcdA e (P : ℤ) % (P : ℤ)) _
      (by omega) ?_ (element_of_int_of_emod .modP (P : ℤ) hP0 (Int.gcdA e (P : ℤ)))
    rw [powmod_inv, if_pos hgcd]
  · rw [mult_p, ONE_MOD_P]
    have hfold : ([e, Int.gcdA e (P : ℤ) % (P : ℤ)].foldl
        (fun product x => (product * x) % (P : ℤ)) 1) = 1 := by
      simp only [List.foldl_cons, List.foldl_nil, one_mul]
      rw [Int.emod_eq_of_lt (by omega) h2]
      exact mul_gcdA_emod P e hgcd hP1
    rw [hfold]

theorem mult_p_mult_inv_p_eq_one_witness :
    ∃ el, mult_inv_p ((23 : ℕ) : ℤ) 2 = Except.ok el ∧
      mult_p ((23 : ℕ) : ℤ) [2, el.value] = ONE_MOD_P ((23 : ℕ) : ℤ) :=
  mult_p_mult_inv_p_eq_one 23 (by norm_num) 2 (by decide) (by decide)

/-- C7: `int_to_q` and `int_to_p` return the constructed element when
the value is within `[0, Q)` resp. `[0, P)` and the absent result
(`None`, not an exception) otherwise; `hex_to_q` and `hex_to_p` behave
the same way on hex strings whose decoded value `m` is out of bounds
(the outer layer records that the string itself parses). -/
theorem conversion_out_of_bounds_none (q p n : ℤ) (s : String) (m : ℕ)
    (hs : hex_to_int s = some m) :
    (int_to_q q n = if 0 ≤ n ∧ n < q then
      some ⟨.modQ, int_to_hex n.toNat, n⟩ else none) ∧
    (int_to_p p n = if 0 ≤ n ∧ n < p then
      some ⟨.modP, int_to_hex n.toNat, n⟩ else none) ∧
    (hex_to_q q s = some (if 0 ≤ (m : ℤ) ∧ (m : ℤ) < q then
      some ⟨.modQ, s, (m : ℤ)⟩ else none)) ∧
    (hex_to_p p s = some (if 0 ≤ (m : ℤ) ∧ (m : ℤ) < p then
      some ⟨.modP, s, (m : ℤ)⟩ else none)) := by
  refine ⟨rfl, rfl, ?_, ?_⟩
  · rw [hex_to_q, element_of_hex, hs, Option.map_some']
  · rw [hex_to_p, element_of_hex, hs, Option.map_some']

theorem conversion_out_of_bounds_none_witness :
    (int_to_q 7 9 = if 0 ≤ (9 : ℤ) ∧ (9 : ℤ) < 7 then
      some ⟨.modQ, int_to_hex (Int.toNat 9), 9⟩ else none) ∧
    (int_to_p 23 9 = if 0 ≤ (9 : ℤ) ∧ (9 : ℤ) < 23 then
      some ⟨.modP, int_to_hex (Int.toNat 9), 9⟩ else none) ∧
    (hex_to_q 7 "0A" = some (if 0 ≤ ((10 : ℕ) : ℤ) ∧ ((10 : ℕ) : ℤ) < 7 then
      some ⟨.modQ, "0A", ((10 : ℕ) : ℤ)⟩ else none)) ∧
    (hex_to_p 23 "0A" = some (if 0 ≤ ((10 : ℕ) : ℤ) ∧ ((10 : ℕ) : ℤ) < 23 then
      some ⟨.modP, "0A", ((10 : ℕ) : ℤ)⟩ else none)) :=
  conversion_out_of_bounds_none 7 23 9 "0A" 10 (by decide)

/-- C8: the empty variadic product is the multiplicative identity, never
an error: `mult_p()` returns `ONE_MOD_P` and `mult_q()` returns
`ONE_MOD_Q`, both the successfully constructed element of value 1
(the moduli exceed 1, per the spec's prime constants). -/
theorem mult_empty_identity (p q : ℤ) (hp : 1 < p) (hq : 1 < q) :
    mult_p p [] = ONE_MOD_P p ∧ mult_q q [] = ONE_MOD_Q q ∧
    mult_p p [] = some ⟨.modP, "01", 1⟩ ∧ mult_q q [] = some ⟨.modQ, "01", 1⟩ := by
  have h01 : int_to_hex (Int.toNat 1) = "01" := by decide
  refine ⟨rfl, rfl, ?_, ?_⟩
  · rw [mult_p, List.foldl_nil, element_of_int,
      if_pos ⟨by omega, hp⟩, h01]
  · rw [mult_q, List.foldl_nil, element_of_int,
      if_pos ⟨by omega, hq⟩, h01]

theorem mult_empty_identity_witness :
    mult_p 23 [] = ONE_MOD_P 23 ∧ mult_q 7 [] = ONE_MOD_Q 7 ∧
    mult_p 23 [] = some ⟨.modP, "01", 1⟩ ∧ mult_q 7 [] = some ⟨.modQ, "01", 1⟩ :=
  mult_empty_identity 23 7 (by decide) (by decide)

/-- C10: the overloaded `+` and `-` return the plain (non-modular)
integer `value(a) + b` resp. `value(a) - b`, constructing no
bounds-checked element; concretely, adding 3 to the in-bounds mod-7
element of value 6 yields the raw integer 9, outside `[0, 7)`, and
subtracting 1 from the zero element yields the raw integer `-1`. -/
theorem elem_add_sub_plain_integer :
    (∀ (a : BaseElement) (b : ℤ),
      elem_add a b = a.value + b ∧ elem_sub a b = a.value - b) ∧
    element_of_int .modQ 7 6 = some ⟨.modQ, "06", 6⟩ ∧
    elem_add ⟨.modQ, "06", 6⟩ 3 = 9 ∧ ¬ (0 ≤ (9 : ℤ) ∧ (9 : ℤ) < 7) ∧
    element_of_int .modQ 7 0 = some ⟨.modQ, "00", 0⟩ ∧
    elem_sub ⟨.modQ, "00", 0⟩ 1 = -1 ∧ ¬ (0 ≤ (-1 : ℤ)) :=
  ⟨fun a b => ⟨rfl, rfl⟩, by decide, by decide, by decide, by decide,
    by decide, by decide⟩

end ElectionGuard
